import Mathlib

/-!
Verification development for the `gemini-investor` repository.

The repository glues a Telegram transport to a Gemini tool-calling agent and a
set of thin trading wrappers over the Alpaca SDK.  We embed the parts of the
code the claims are about:

* `src/gemini_investor/options_calls.py` — the option-contract lookup and the
  market/limit order wrappers, including their Python `int(...)`/`float(...)`
  argument coercion and Python truthiness tests (`if strike_price:` etc.);
* `src/telegram_bot.py` — the chat handlers (`start`, `message`,
  `get_chat_id`), the allow-list check and the `CLIENTS` session map;
* `src/common.py` — the Action Registry scan (`all_functions`) and
  `create_client`'s copy-then-append of the registry.

Machine floats carried by the wrappers are modelled by `ℚ` (the concrete
inputs exercised are exactly representable), Python's `None`-able fields by
`Option`, and Python exceptions (failed coercions) by `Option` results.
-/

/-! ## Python primitive values and coercion (`int(...)`, `float(...)`) -/

/-- Decimal digit string to a natural number; fails on an empty list or a
non-digit character, like Python `int` parsing restricted to plain digits. -/
def pyNatOfDigits (cs : List Char) : Option Nat :=
  if cs.isEmpty then none
  else cs.foldl (fun acc c => acc.bind fun n =>
    if c.isDigit then some (10 * n + (c.toNat - 48)) else none) (some 0)

/-- Python `int(s)` for a plain decimal string (optional leading minus sign). -/
def pyIntOfString (s : String) : Option Int :=
  match s.data with
  | '-' :: rest => (pyNatOfDigits rest).map fun n => -(n : Int)
  | _ => (pyNatOfDigits s.data).map fun n => (n : Int)

/-- Split a character list at the dots (the shape Python `float` parsing
distinguishes). -/
def splitDot : List Char → List (List Char)
  | [] => [[]]
  | c :: rest =>
    let r := splitDot rest
    if c = '.' then [] :: r
    else
      match r with
      | [] => [[c]]
      | p :: ps => (c :: p) :: ps

/-- Unsigned part of Python `float(s)`: decimal digits with an optional
fraction part after a single dot. -/
def pyRatOfUnsigned (s : String) : Option ℚ :=
  match splitDot s.data with
  | [a] => (pyNatOfDigits a).map fun n => (n : ℚ)
  | [a, b] =>
    if a.isEmpty && b.isEmpty then none
    else
      match (if a.isEmpty then some 0 else pyNatOfDigits a),
            (if b.isEmpty then some 0 else pyNatOfDigits b) with
      | some ip, some fp => some (mkRat ((ip : Int) * 10 ^ b.length + (fp : Int)) (10 ^ b.length))
      | _, _ => none
  | _ => none

/-- Python `float(s)` for a plain decimal string (optional leading minus). -/
def pyRatOfString (s : String) : Option ℚ :=
  match s.data with
  | '-' :: rest => (pyRatOfUnsigned (String.mk rest)).map fun q => -q
  | _ => pyRatOfUnsigned s

/-- A Python value as it may arrive from the tool-calling agent: a string, an
integer, or a float (modelled by `ℚ`). -/
inductive PyVal where
  | str (s : String)
  | int (n : Int)
  | float (q : ℚ)
deriving DecidableEq

/-- Python `int(v)`: parse strings, keep integers, truncate floats toward
zero; `none` models the `ValueError`/`TypeError` raised on failure. -/
def pyInt : PyVal → Option Int
  | .str s => pyIntOfString s
  | .int n => some n
  | .float q => some (q.num.tdiv q.den)

/-- Python `float(v)`: parse strings, cast integers, keep floats. -/
def pyFloat : PyVal → Option ℚ
  | .str s => pyRatOfString s
  | .int n => some (n : ℚ)
  | .float q => some q

/-- Whether a value is already numeric (not a string). -/
def PyVal.isNumeric : PyVal → Bool
  | .str _ => false
  | .int _ => true
  | .float _ => true

/-- Python `str(v)` for the values above (used only to render tickers). -/
def pyValStr : PyVal → String
  | .str s => s
  | .int n => toString n
  | .float q => toString q

/-! ## Orders submitted to the trading client

`gemini_investor/alpaca_utils.py` is not part of the sources; its
order-submission helpers and `create_option_ticker` are modelled from the
spec.  An order is modelled as the request this code hands to the external
trading client. -/

inductive OrderSide where
  | buy
  | sell
deriving DecidableEq

inductive TimeInForce where
  | day
deriving DecidableEq

inductive OrderKind where
  | market
  | limit
deriving DecidableEq

/-- The request a wrapper passes to the external trading client.  `qty`,
the strike inside the ticker and `limit_price` keep the `PyVal` that the
wrapper actually forwarded, so coercion (or its absence) is observable. -/
structure SubmittedOrder where
  symbol : String
  qty : PyVal
  side : OrderSide
  time_in_force : TimeInForce
  kind : OrderKind
  limit_price : Option PyVal
deriving DecidableEq

/-- Modelled from the spec: `create_option_ticker` lives in
`gemini_investor/alpaca_utils.py`, which is not among the sources; per the
spec it builds the contract ticker from the four identifying fields.  The
strike is kept as the `PyVal` the caller passed, since one wrapper forwards
it uncoerced. -/
def create_option_ticker (underlying_symbol expiration_date option_type : String)
    (strike_price : PyVal) : String :=
  underlying_symbol ++ "_" ++ expiration_date ++ "_" ++ option_type ++ "_" ++
    pyValStr strike_price

/-- Modelled from the spec: `submit_market_order` of
`gemini_investor/alpaca_utils.py` (not among the sources) submits a market
order with the given time-in-force and side and returns it. -/
def submit_market_order (symbol : String) (qty : PyVal) (time_in_force : TimeInForce)
    (side : OrderSide) : SubmittedOrder :=
  ⟨symbol, qty, side, time_in_force, .market, none⟩

/-- Modelled from the spec: `submit_sell_market_order` of
`gemini_investor/alpaca_utils.py` (not among the sources) submits a
day-duration market sell order. -/
def submit_sell_market_order (symbol : String) (qty : PyVal) : SubmittedOrder :=
  ⟨symbol, qty, .sell, .day, .market, none⟩

/-- Modelled from the spec: `submit_limit_sell_order` of
`gemini_investor/alpaca_utils.py` (not among the sources) submits a limit
sell order at the given limit price and time-in-force. -/
def submit_limit_sell_order (symbol : String) (qty : PyVal) (limit_price : PyVal)
    (time_in_force : TimeInForce) : SubmittedOrder :=
  ⟨symbol, qty, .sell, time_in_force, .limit, some limit_price⟩

/-! ## Trading wrappers (`src/gemini_investor/options_calls.py`) -/

/-- `buy_option_by_market_price`: coerces `strike_price = float(strike_price)`
and `qty = int(qty)`, builds the ticker from the four identifying fields and
submits a day-duration market buy.  `none` models a raised coercion error. -/
def buy_option_by_market_price (underlying_symbol expiration_date option_type : String)
    (strike_price qty : PyVal) : Option SubmittedOrder :=
  match pyFloat strike_price, pyInt qty with
  | some k, some n =>
    some (submit_market_order
      (create_option_ticker underlying_symbol expiration_date option_type (.float k))
      (.int n) .day .buy)
  | _, _ => none

/-- `sell_option_by_market_price_with_option_ticker`: forwards `qty` to
`submit_sell_market_order` as received — the source performs no coercion. -/
def sell_option_by_market_price_with_option_ticker (option_ticker : String)
    (qty : PyVal) : SubmittedOrder :=
  submit_sell_market_order option_ticker qty

/-- `sell_option_by_market_price`: derives the ticker from the fields (the
strike is passed to `create_option_ticker` uncoerced) and delegates to the
by-ticker variant. -/
def sell_option_by_market_price (underlying_symbol expiration_date option_type : String)
    (strike_price qty : PyVal) : SubmittedOrder :=
  sell_option_by_market_price_with_option_ticker
    (create_option_ticker underlying_symbol expiration_date option_type strike_price) qty

/-- `sell_option_by_limit_price`: coerces `qty = int(qty)` and
`limit_price = float(limit_price)` and submits a day-duration limit sell. -/
def sell_option_by_limit_price (option_ticker : String) (qty limit_price : PyVal) :
    Option SubmittedOrder :=
  match pyInt qty, pyFloat limit_price with
  | some n, some lp =>
    some (submit_limit_sell_order option_ticker (.int n) (.float lp) .day)
  | _, _ => none

/-! ## Option contract lookup (`get_option_contract`) -/

/-- An option contract as returned by the external client's
`get_option_contracts` query (the request asks for active contracts only,
so every listed contract is active).  `open_interest` models the SDK's
`Optional[str]` field: `none` for a missing value, `some v` for a numeric
string of value `v` (a present string, `"0"` included, is truthy). -/
structure OptionContract where
  symbol : String
  strike_price : ℚ
  expiration_date : String
  open_interest : Option Int
deriving DecidableEq

/-- Python `str(contract)` — the serialized form the function returns. -/
def str_of_contract (c : OptionContract) : String :=
  "symbol=" ++ c.symbol ++ ", strike=" ++ toString c.strike_price ++
    ", expiration=" ++ c.expiration_date ++
    (match c.open_interest with
     | some v => ", open_interest=" ++ toString v
     | none => ", open_interest=None")

/-- The open-interest filter:
`[c for c in contracts if c.open_interest and int(c.open_interest) >= min_open_interest]`. -/
def oiFiltered (contracts : List OptionContract) (min_open_interest : Int) :
    List OptionContract :=
  contracts.filter fun c =>
    match c.open_interest with
    | some v => decide (min_open_interest ≤ v)
    | none => false

/-- The expiration filter:
`if expiration_date: matching = [c for c in matching if c.expiration_date == expiration_date]`
(a `None` or empty-string argument is falsy and skips the filter). -/
def expFiltered (l : List OptionContract) (expiration_date : Option String) :
    List OptionContract :=
  match expiration_date with
  | some ed => if ed = "" then l else l.filter fun c => c.expiration_date == ed
  | none => l

/-- Executable subtraction on `ℚ` (kernel-reducible); agrees with `a - b`. -/
def qsub (a b : ℚ) : ℚ :=
  mkRat (a.num * (b.den : Int) - b.num * (a.den : Int)) (a.den * b.den)

/-- Executable `a ≤ b` test on `ℚ` (kernel-reducible). -/
def qle (a b : ℚ) : Bool := !Rat.blt b a

/-- Executable absolute value on `ℚ` (Python `abs`); agrees with `|·|`. -/
def ratAbs (q : ℚ) : ℚ := if Rat.blt q 0 then -q else q

/-- Sort key of the strike sort: `abs(c.strike_price - strike_price)`. -/
def strikeKey (strike_price : ℚ) (c : OptionContract) : ℚ :=
  ratAbs (qsub c.strike_price strike_price)

/-- Comparison relation used by the strike sort (`sorted` with that key). -/
def strikeLE (strike_price : ℚ) (a b : OptionContract) : Prop :=
  qle (strikeKey strike_price a) (strikeKey strike_price b) = true

instance (sp : ℚ) : DecidableRel (strikeLE sp) :=
  fun a b => inferInstanceAs (Decidable (_ = true))

/-- `get_option_contract` over the contract list the external client
returned: open-interest filter, optional exact-expiration filter, then — only
when `strike_price` is truthy (present and nonzero) — a stable sort by
absolute distance to the target strike (Python `sorted` is stable;
`List.insertionSort` is its stable model); finally
`str(matching_contracts[0]) if matching_contracts else None`. -/
def get_option_contract (contracts : List OptionContract)
    (expiration_date : Option String) (strike_price : Option ℚ)
    (min_open_interest : Int) : Option String :=
  let m1 := oiFiltered contracts min_open_interest
  let m2 := expFiltered m1 expiration_date
  let m3 := match strike_price with
    | some sp => if sp = 0 then m2 else m2.insertionSort (strikeLE sp)
    | none => m2
  m3.head?.map str_of_contract

/-- First element of a list attaining the minimal key — the element a stable
ascending sort by that key puts first. -/
def firstMinBy {α : Type} (key : α → ℚ) : List α → Option α
  | [] => none
  | c :: cs =>
    match firstMinBy key cs with
    | none => some c
    | some m => if key c ≤ key m then some c else some m

/-! ## Telegram transport adapter and session manager (`src/telegram_bot.py`) -/

namespace TelegramBot

/-- Configuration read once at start: `TELEGRAM_CHAT_IDS` split on commas,
each entry kept as a string. -/
structure BotConfig where
  chat_ids : List String
deriving DecidableEq

/-- Process state: the module-level `CLIENTS` dict keyed by the raw (integer)
`chat_id`, plus an allocation counter so that distinct `GeminiChatClient(...)`
constructions yield distinct agent identities (reference identity). -/
structure BotState where
  clients : List (Int × Nat)
  nextAgent : Nat
deriving DecidableEq

/-- `CLIENTS.get(chat_id, None)`: first match in the association list. -/
def lookupClient : List (Int × Nat) → Int → Option Nat
  | [], _ => none
  | (k, v) :: rest, cid => if k = cid then some v else lookupClient rest cid

/-- Models the external `GeminiChatClient.send_message`: the reply text is
some function of the agent instance and the inbound text; the claims depend
only on which agent produced the reply and on how many replies occur. -/
def send_message (agent : Nat) (text : String) : String :=
  "agent " ++ toString agent ++ " answers " ++ text

/-- Result of one handler run: the state afterwards, the transport replies
sent (in order), and the agent instance used to answer, if any. -/
structure HandlerResult where
  state : BotState
  replies : List String
  usedAgent : Option Nat
deriving DecidableEq

/-- The `/start` handler: drop when `str(chat_id)` is not allow-listed,
otherwise reply with the static acknowledgement. -/
def start (cfg : BotConfig) (s : BotState) (chat_id : Int) : HandlerResult :=
  if toString chat_id ∈ cfg.chat_ids then ⟨s, ["One sec, warming up."], none⟩
  else ⟨s, [], none⟩

/-- The free-text `message` handler: drop when not allow-listed; otherwise
get-or-create the session's agent (`CLIENTS.get`, lazily constructing and
storing a fresh client), send the text to it and reply with its answer. -/
def message (cfg : BotConfig) (s : BotState) (chat_id : Int) (text : String) :
    HandlerResult :=
  if toString chat_id ∈ cfg.chat_ids then
    match lookupClient s.clients chat_id with
    | some a => ⟨s, [send_message a text], some a⟩
    | none =>
      let a := s.nextAgent
      ⟨⟨(chat_id, a) :: s.clients, s.nextAgent + 1⟩, [send_message a text], some a⟩
  else ⟨s, [], none⟩

/-- The `/get_chat_id` handler: replies with the chat id.  The source
performs no allow-list check here. -/
def get_chat_id (s : BotState) (chat_id : Int) : HandlerResult :=
  ⟨s, ["Your chat ID is: " ++ toString chat_id], none⟩

/-- An inbound chat event, dispatched to one of the three handlers. -/
inductive ChatEvent where
  | cmdStart (chat_id : Int)
  | cmdGetChatId (chat_id : Int)
  | text (chat_id : Int) (msg : String)
deriving DecidableEq

/-- Originating identity of an event. -/
def ChatEvent.chatId : ChatEvent → Int
  | .cmdStart c => c
  | .cmdGetChatId c => c
  | .text c _ => c

/-- Dispatch an inbound event to its handler, as the `Application` handler
registration does. -/
def handleEvent (cfg : BotConfig) (s : BotState) : ChatEvent → HandlerResult
  | .cmdStart c => start cfg s c
  | .cmdGetChatId c => get_chat_id s c
  | .text c t => message cfg s c t

end TelegramBot

/-! ## Action Registry scan (`src/common.py`, `all_functions`) -/

/-- A member of a Python module as `inspect.getmembers` sees it: its
attribute name, the `__module__` it was defined in, and whether it is a
function. -/
structure ModMember where
  name : String
  moduleOf : String
  isFunction : Bool
deriving DecidableEq

/-- Executable lexicographic comparison of names by character code (the
order Python's string comparison induces on identifiers). -/
def chLE : List Char → List Char → Bool
  | [], _ => true
  | _ :: _, [] => false
  | a :: as, b :: bs =>
    if a.toNat < b.toNat then true
    else if b.toNat < a.toNat then false
    else chLE as bs

/-- Name order used by `inspect.getmembers`, which sorts members by name. -/
def nameLE (a b : ModMember) : Prop := chLE a.name.data b.name.data = true

instance : DecidableRel nameLE :=
  fun a b => inferInstanceAs (Decidable (chLE a.name.data b.name.data = true))

/-- Strict name order (a helper for the stability proof). -/
def nameLT (a b : ModMember) : Prop := nameLE a b ∧ a.name ≠ b.name

/-- `inspect.getmembers(module)`: the module's members sorted by name
(the CPython implementation sorts the `dir()` result). -/
def getmembers (ms : List ModMember) : List ModMember :=
  ms.insertionSort nameLE

/-- One comprehension of the registry:
`[func for _, func in inspect.getmembers(mod) if inspect.isfunction(func) and func.__module__ == mod.__name__]`. -/
def scan_module (module_name : String) (ms : List ModMember) : List ModMember :=
  (getmembers ms).filter fun f => f.isFunction && (f.moduleOf == module_name)

/-- The `all_functions` registry scan: the per-module comprehensions
concatenated over the fixed module list of `src/common.py`. -/
def all_functions : List (String × List ModMember) → List ModMember
  | [] => []
  | (n, ms) :: rest => scan_module n ms ++ all_functions rest

/-! ## `create_client` and the registry copy (`src/common.py`) -/

/-- A heap of Python list objects holding function identifiers; references
are indices.  Mutation through one reference must not affect another, so
`all_functions.copy()` versus in-place `append` is observable. -/
abbrev PyHeap := List (List Nat)

/-- `xs.copy()`: allocate a fresh list object with the same elements and
return its reference. -/
def listCopy (h : PyHeap) (r : Nat) : PyHeap × Nat :=
  (h ++ [h.getD r []], h.length)

/-- `xs.append(v)`: in-place mutation of the referenced list object. -/
def listAppendAt (h : PyHeap) (r : Nat) (v : Nat) : PyHeap :=
  h.set r (h.getD r [] ++ [v])

/-- `create_client`: copy the module-level `all_functions` list, append the
per-user send-message callback to the copy, and hand the copy to the external
client factory (the returned reference models the function list the client is
built from). -/
def create_client (h : PyHeap) (all_functions_ref : Nat) (callback : Nat) :
    PyHeap × Nat :=
  let p := listCopy h all_functions_ref
  (listAppendAt p.1 p.2 callback, p.2)

/-- A sequence of `create_client` calls, one per callback, threading the
heap; returns the final heap and each call's client-list reference. -/
def create_clients (h : PyHeap) (all_functions_ref : Nat) :
    List Nat → PyHeap × List Nat
  | [] => (h, [])
  | cb :: rest =>
    let p := create_client h all_functions_ref cb
    let q := create_clients p.1 all_functions_ref rest
    (q.1, p.2 :: q.2)

/-! ## Helper lemmas -/

theorem qle_iff (a b : ℚ) : qle a b = true ↔ a ≤ b := by
  rw [qle, Bool.not_eq_true']
  exact Iff.rfl

theorem blt_iff (a b : ℚ) : Rat.blt a b = true ↔ a < b := Iff.rfl

theorem qsub_eq (a b : ℚ) : qsub a b = a - b := by
  rw [qsub, Rat.mkRat_eq_divInt, Rat.divInt_eq_div]
  have ha : ((a.den : ℚ)) ≠ 0 := Nat.cast_ne_zero.mpr a.den_ne_zero
  have hb : ((b.den : ℚ)) ≠ 0 := Nat.cast_ne_zero.mpr b.den_ne_zero
  conv_rhs => rw [← Rat.num_div_den a, ← Rat.num_div_den b]
  rw [div_sub_div _ _ ha hb]
  push_cast
  ring_nf

theorem ratAbs_eq_abs (q : ℚ) : ratAbs q = |q| := by
  rw [ratAbs]
  by_cases h : q < 0
  · rw [if_pos ((blt_iff q 0).mpr h), abs_of_neg h]
  · rw [if_neg (fun hc => h ((blt_iff q 0).mp hc)), abs_of_nonneg (not_lt.mp h)]

theorem strikeKey_eq_abs (sp : ℚ) (c : OptionContract) :
    strikeKey sp c = |c.strike_price - sp| := by
  rw [strikeKey, ratAbs_eq_abs, qsub_eq]

theorem strikeLE_iff (sp : ℚ) (a b : OptionContract) :
    strikeLE sp a b ↔ strikeKey sp a ≤ strikeKey sp b := by
  rw [strikeLE, qle_iff]


theorem firstMinBy_cons_none {α : Type} (key : α → ℚ) (a : α) (l : List α)
    (h : firstMinBy key l = none) : firstMinBy key (a :: l) = some a := by
  rw [firstMinBy, h]

theorem firstMinBy_cons_some {α : Type} (key : α → ℚ) (a : α) (l : List α) (b : α)
    (h : firstMinBy key l = some b) :
    firstMinBy key (a :: l) = if key a ≤ key b then some a else some b := by
  rw [firstMinBy, h]

theorem firstMinBy_eq_none {α : Type} (key : α → ℚ) (l : List α) :
    firstMinBy key l = none ↔ l = [] := by
  cases l with
  | nil => simp [firstMinBy]
  | cons a l =>
    cases hl : firstMinBy key l with
    | none => simp [firstMinBy_cons_none key a l hl]
    | some b =>
      rw [firstMinBy_cons_some key a l b hl]
      by_cases hk : key a ≤ key b <;> simp [hk]

theorem firstMinBy_mem {α : Type} (key : α → ℚ) :
    ∀ (l : List α) (m : α), firstMinBy key l = some m → m ∈ l := by
  intro l
  induction l with
  | nil => intro m h; simp [firstMinBy] at h
  | cons a l ih =>
    intro m h
    cases hl : firstMinBy key l with
    | none =>
      rw [firstMinBy_cons_none key a l hl] at h
      exact (Option.some_inj.mp h) ▸ List.mem_cons_self a l
    | some b =>
      rw [firstMinBy_cons_some key a l b hl] at h
      by_cases hk : key a ≤ key b
      · rw [if_pos hk] at h
        exact (Option.some_inj.mp h) ▸ List.mem_cons_self a l
      · rw [if_neg hk] at h
        exact List.mem_cons_of_mem a ((Option.some_inj.mp h) ▸ ih b hl)

theorem firstMinBy_le {α : Type} (key : α → ℚ) :
    ∀ (l : List α) (m : α), firstMinBy key l = some m →
      ∀ c ∈ l, key m ≤ key c := by
  intro l
  induction l with
  | nil => intro m h; simp [firstMinBy] at h
  | cons a l ih =>
    intro m h c hc
    cases hl : firstMinBy key l with
    | none =>
      rw [firstMinBy_cons_none key a l hl] at h
      obtain rfl : a = m := Option.some_inj.mp h
      rcases List.mem_cons.mp hc with h1 | hc'
      · exact h1 ▸ le_refl _
      · exact absurd ((List.eq_nil_iff_forall_not_mem).mp
          ((firstMinBy_eq_none key l).mp hl) c) (by simp [hc'])
    | some b =>
      rw [firstMinBy_cons_some key a l b hl] at h
      by_cases hk : key a ≤ key b
      · rw [if_pos hk] at h
        obtain rfl : a = m := Option.some_inj.mp h
        rcases List.mem_cons.mp hc with h1 | hc'
        · exact h1 ▸ le_refl _
        · exact le_trans hk (ih b hl c hc')
      · rw [if_neg hk] at h
        obtain rfl : b = m := Option.some_inj.mp h
        rcases List.mem_cons.mp hc with h1 | hc'
        · exact h1 ▸ le_of_lt (not_le.mp hk)
        · exact ih b hl c hc'

theorem firstMinBy_first {α : Type} (key : α → ℚ) :
    ∀ (l : List α) (m : α), firstMinBy key l = some m →
      ∃ l₁ l₂, l = l₁ ++ m :: l₂ ∧ ∀ c ∈ l₁, key m < key c := by
  intro l
  induction l with
  | nil => intro m h; simp [firstMinBy] at h
  | cons a l ih =>
    intro m h
    cases hl : firstMinBy key l with
    | none =>
      rw [firstMinBy_cons_none key a l hl] at h
      exact ⟨[], l, by simp [Option.some_inj.mp h], by simp⟩
    | some b =>
      rw [firstMinBy_cons_some key a l b hl] at h
      by_cases hk : key a ≤ key b
      · rw [if_pos hk] at h
        exact ⟨[], l, by simp [Option.some_inj.mp h], by simp⟩
      · rw [if_neg hk] at h
        obtain ⟨l₁, l₂, hsplit, hmin⟩ := ih b hl
        refine ⟨a :: l₁, l₂, by simp [hsplit, Option.some_inj.mp h], ?_⟩
        intro c hc
        rcases List.mem_cons.mp hc with rfl | hc'
        · exact (Option.some_inj.mp h) ▸ not_le.mp hk
        · exact (Option.some_inj.mp h) ▸ hmin c hc'

theorem insertionSort_head_strike (sp : ℚ) :
    ∀ l : List OptionContract,
      (l.insertionSort (strikeLE sp)).head? = firstMinBy (strikeKey sp) l := by
  intro l
  induction l with
  | nil => simp [List.insertionSort, firstMinBy]
  | cons a l ih =>
    rw [List.insertionSort]
    cases hs : (l.insertionSort (strikeLE sp)) with
    | nil =>
      have hperm := List.perm_insertionSort (strikeLE sp) l
      rw [hs] at hperm
      have hl : l = [] := hperm.symm.eq_nil
      subst hl
      simp [List.orderedInsert, firstMinBy]
    | cons b t =>
      have hb : firstMinBy (strikeKey sp) l = some b := by
        rw [← ih, hs]
        rfl
      rw [firstMinBy_cons_some _ a l b hb]
      by_cases h : strikeLE sp a b
      · rw [List.orderedInsert, if_pos h, if_pos ((strikeLE_iff sp a b).mp h)]
        rfl
      · rw [List.orderedInsert, if_neg h,
          if_neg (fun hc => h ((strikeLE_iff sp a b).mpr hc))]
        rfl

/-! ## Claim theorems: option contract lookup -/

/-- Claim C2: the open-interest filter of `get_option_contract` keeps exactly
the contracts whose (present) open interest is at least `min_open_interest`,
without reordering; with `min_open_interest = 0`, no target strike and no
expiration, the function returns the first contract of that filtered list,
serialized. -/
theorem get_option_contract_oi_filter (contracts : List OptionContract) (m : Int) :
    (∀ c, c ∈ oiFiltered contracts m ↔
       c ∈ contracts ∧ ∃ v, c.open_interest = some v ∧ m ≤ v)
    ∧ List.Sublist (oiFiltered contracts m) contracts
    ∧ get_option_contract contracts none none 0 =
        (oiFiltered contracts 0).head?.map str_of_contract := by
  refine ⟨?_, ?_, rfl⟩
  · intro c
    rw [oiFiltered, List.mem_filter]
    cases hoi : c.open_interest with
    | none => simp [hoi]
    | some v => simp [hoi, decide_eq_true_iff]
  · exact List.filter_sublist contracts

/-- Claim C7: when no contract survives the open-interest and expiration
filters, `get_option_contract` returns `None` (no exception is modelled:
the embedding is total and the empty case is handled explicitly). -/
theorem get_option_contract_none_when_empty (contracts : List OptionContract)
    (ed : Option String) (sp : Option ℚ) (m : Int)
    (h : expFiltered (oiFiltered contracts m) ed = []) :
    get_option_contract contracts ed sp m = none := by
  cases sp with
  | none => simp [get_option_contract, h]
  | some s =>
    by_cases hs : s = 0 <;> simp [get_option_contract, h, hs, List.insertionSort]

/-- Claim C7 witness: a single contract with a missing open interest is
filtered out and the lookup returns `None`. -/
theorem get_option_contract_none_when_empty_witness :
    expFiltered (oiFiltered [⟨"X", 1, "2025-01-17", none⟩] 0) none = []
    ∧ get_option_contract [⟨"X", 1, "2025-01-17", none⟩] none none 0 = none :=
  ⟨by decide, get_option_contract_none_when_empty _ none none 0 (by decide)⟩

/-- Claim C3 counterexample: with the target strike `0.0` the source's
`if strike_price:` is falsy and the sort is skipped, so the first filtered
contract (strike 5) is returned even though the strike-3 contract is strictly
closer to the target 0.  This refutes the claim for the target strike 0. -/
theorem get_option_contract_zero_strike_cex :
    get_option_contract [⟨"A5", 5, "d", some 1⟩, ⟨"B3", 3, "d", some 1⟩]
        none (some 0) 0
      = some (str_of_contract ⟨"A5", 5, "d", some 1⟩)
    ∧ strikeKey 0 ⟨"B3", 3, "d", some 1⟩ < strikeKey 0 ⟨"A5", 5, "d", some 1⟩
    ∧ str_of_contract ⟨"A5", 5, "d", some 1⟩ ≠ str_of_contract ⟨"B3", 3, "d", some 1⟩ := by
  refine ⟨by decide, by decide, by decide⟩

/-- Claim C3 (amended: the target strike must be nonzero, since Python's
`if strike_price:` treats `0.0` as falsy and skips the sort): for a nonzero
target strike `sp`, `get_option_contract` returns the serialization of the
first contract, among those passing the open-interest and expiration filters,
with minimal `|strike - sp|`; on ties the earliest contract of the unsorted
filtered list wins (Python's `sorted` is stable). -/
theorem get_option_contract_nearest_strike (contracts : List OptionContract)
    (ed : Option String) (m : Int) (sp : ℚ) (hsp : sp ≠ 0) :
    get_option_contract contracts ed (some sp) m
      = (firstMinBy (strikeKey sp)
          (expFiltered (oiFiltered contracts m) ed)).map str_of_contract
    ∧ ∀ c₀, firstMinBy (strikeKey sp) (expFiltered (oiFiltered contracts m) ed) = some c₀ →
        c₀ ∈ expFiltered (oiFiltered contracts m) ed
        ∧ (∀ c ∈ expFiltered (oiFiltered contracts m) ed,
            |c₀.strike_price - sp| ≤ |c.strike_price - sp|)
        ∧ ∃ l₁ l₂, expFiltered (oiFiltered contracts m) ed = l₁ ++ c₀ :: l₂
            ∧ ∀ c ∈ l₁, |c₀.strike_price - sp| < |c.strike_price - sp| := by
  constructor
  · simp only [get_option_contract, if_neg hsp]
    rw [insertionSort_head_strike]
  · intro c₀ h
    refine ⟨firstMinBy_mem _ _ c₀ h, ?_, ?_⟩
    · intro c hc
      have hle := firstMinBy_le (strikeKey sp) _ c₀ h c hc
      rwa [strikeKey_eq_abs, strikeKey_eq_abs] at hle
    · obtain ⟨l₁, l₂, hsplit, hmin⟩ := firstMinBy_first (strikeKey sp) _ c₀ h
      refine ⟨l₁, l₂, hsplit, ?_⟩
      intro c hc
      have hlt := hmin c hc
      rwa [strikeKey_eq_abs, strikeKey_eq_abs] at hlt

/-- Claim C3 witness: contracts at strikes 95, 100 and 105 with target strike
102 select the strike-100 contract. -/
theorem get_option_contract_nearest_strike_witness :
    (102 : ℚ) ≠ 0
    ∧ get_option_contract
          [⟨"C95", 95, "d", some 1⟩, ⟨"C100", 100, "d", some 1⟩, ⟨"C105", 105, "d", some 1⟩]
          none (some 102) 0
        = (firstMinBy (strikeKey 102)
            (expFiltered (oiFiltered
              [⟨"C95", 95, "d", some 1⟩, ⟨"C100", 100, "d", some 1⟩, ⟨"C105", 105, "d", some 1⟩]
              0) none)).map str_of_contract
    ∧ firstMinBy (strikeKey 102)
        (expFiltered (oiFiltered
          [⟨"C95", 95, "d", some 1⟩, ⟨"C100", 100, "d", some 1⟩, ⟨"C105", 105, "d", some 1⟩]
          0) none)
      = some ⟨"C100", 100, "d", some 1⟩ :=
  ⟨by decide,
   (get_option_contract_nearest_strike _ none 0 102 (by decide)).1,
   by decide⟩

/-! ## Claim theorems: trading wrappers -/

/-- Claim C5: `buy_option_by_market_price("AAPL", "2025-06-20", "C", "150", "2")`
coerces the strike to the float `150.0` and the quantity to the integer `2`,
and submits a day-duration market buy for 2 contracts of the ticker derived
from the four identifying fields. -/
theorem buy_option_market_example :
    pyFloat (.str "150") = some (150 : ℚ)
    ∧ pyInt (.str "2") = some (2 : Int)
    ∧ buy_option_by_market_price "AAPL" "2025-06-20" "C" (.str "150") (.str "2")
      = some ⟨create_option_ticker "AAPL" "2025-06-20" "C" (.float 150),
          .int 2, .buy, .day, .market, none⟩ := by
  refine ⟨by decide, by decide, by decide⟩

/-- Claim C4 counterexample: `sell_option_by_market_price_with_option_ticker`
forwards its quantity argument to the trading client exactly as received, so
a stringified quantity reaches the request uncoerced (still non-numeric). -/
theorem sell_by_ticker_forwards_uncoerced_qty :
    (sell_option_by_market_price_with_option_ticker "AAPL240621C00190000"
        (.str "2")).qty = PyVal.str "2"
    ∧ PyVal.isNumeric
        ((sell_option_by_market_price_with_option_ticker "AAPL240621C00190000"
          (.str "2")).qty) = false := by
  refine ⟨by decide, by decide⟩

/-- Claim C4 (amended: `buy_option_by_market_price` coerces its strike to a
float and its quantity to an integer, and `sell_option_by_limit_price`
coerces its quantity to an integer and its limit price to a float, before
constructing their requests; but `sell_option_by_market_price_with_option_ticker`
forwards its quantity uncoerced and `sell_option_by_market_price` forwards
both its strike and its quantity uncoerced). -/
theorem wrappers_coerce_numeric :
    (∀ u e t k q ord, buy_option_by_market_price u e t k q = some ord →
        ∃ kq n, pyFloat k = some kq ∧ pyInt q = some n
          ∧ ord.qty = PyVal.int n
          ∧ ord.symbol = create_option_ticker u e t (PyVal.float kq)
          ∧ ord.side = OrderSide.buy ∧ ord.time_in_force = TimeInForce.day
          ∧ ord.kind = OrderKind.market)
    ∧ (∀ tk q lp ord, sell_option_by_limit_price tk q lp = some ord →
        ∃ n l, pyInt q = some n ∧ pyFloat lp = some l
          ∧ ord.qty = PyVal.int n ∧ ord.limit_price = some (PyVal.float l)
          ∧ ord.side = OrderSide.sell ∧ ord.time_in_force = TimeInForce.day
          ∧ ord.kind = OrderKind.limit)
    ∧ (∀ tk q, (sell_option_by_market_price_with_option_ticker tk q).qty = q)
    ∧ (∀ u e t k q, (sell_option_by_market_price u e t k q).qty = q
        ∧ (sell_option_by_market_price u e t k q).symbol
            = create_option_ticker u e t k) := by
  refine ⟨?_, ?_, fun tk q => rfl, fun u e t k q => ⟨rfl, rfl⟩⟩
  · intro u e t k q ord h
    rw [buy_option_by_market_price] at h
    cases hk : pyFloat k with
    | none => rw [hk] at h; cases hq : pyInt q <;> rw [hq] at h <;> simp at h
    | some kq =>
      rw [hk] at h
      cases hq : pyInt q with
      | none => rw [hq] at h; simp at h
      | some n =>
        rw [hq] at h
        simp only [Option.some_inj] at h
        subst h
        exact ⟨kq, n, rfl, rfl, rfl, rfl, rfl, rfl, rfl⟩
  · intro tk q lp ord h
    rw [sell_option_by_limit_price] at h
    cases hq : pyInt q with
    | none => rw [hq] at h; cases hl : pyFloat lp <;> rw [hl] at h <;> simp at h
    | some n =>
      rw [hq] at h
      cases hl : pyFloat lp with
      | none => rw [hl] at h; simp at h
      | some l =>
        rw [hl] at h
        simp only [Option.some_inj] at h
        subst h
        exact ⟨n, l, rfl, rfl, rfl, rfl, rfl, rfl, rfl⟩

/-- Claim C4 witness: a concrete buy call with stringified arguments goes out
with the strike coerced to the float `100.5` and the quantity to the integer
`3`. -/
theorem wrappers_coerce_numeric_witness :
    buy_option_by_market_price "MSFT" "2025-01-17" "P" (.str "100.5") (.str "3")
      = some ⟨create_option_ticker "MSFT" "2025-01-17" "P" (.float (mkRat 201 2)),
          .int 3, .buy, .day, .market, none⟩
    ∧ ∃ kq n, pyFloat (PyVal.str "100.5") = some kq ∧ pyInt (PyVal.str "3") = some n
        ∧ (⟨create_option_ticker "MSFT" "2025-01-17" "P" (.float (mkRat 201 2)),
            .int 3, .buy, .day, .market, none⟩ : SubmittedOrder).qty = PyVal.int n
        ∧ (⟨create_option_ticker "MSFT" "2025-01-17" "P" (.float (mkRat 201 2)),
            .int 3, .buy, .day, .market, none⟩ : SubmittedOrder).symbol
            = create_option_ticker "MSFT" "2025-01-17" "P" (PyVal.float kq)
        ∧ (⟨create_option_ticker "MSFT" "2025-01-17" "P" (.float (mkRat 201 2)),
            .int 3, .buy, .day, .market, none⟩ : SubmittedOrder).side = OrderSide.buy
        ∧ (⟨create_option_ticker "MSFT" "2025-01-17" "P" (.float (mkRat 201 2)),
            .int 3, .buy, .day, .market, none⟩ : SubmittedOrder).time_in_force = TimeInForce.day
        ∧ (⟨create_option_ticker "MSFT" "2025-01-17" "P" (.float (mkRat 201 2)),
            .int 3, .buy, .day, .market, none⟩ : SubmittedOrder).kind = OrderKind.market :=
  ⟨by decide,
   wrappers_coerce_numeric.1 "MSFT" "2025-01-17" "P" (.str "100.5") (.str "3") _ (by decide)⟩

/-! ## Claim theorems: transport adapter and session manager -/

/-- Claim C1 counterexample: the `/get_chat_id` handler performs no allow-list
check, so an identity outside the allow-list still receives a transport reply
(one reply, not zero), refuting the claim that every inbound event from a
non-allow-listed identity is silently dropped. -/
theorem get_chat_id_bypasses_allowlist :
    ¬ (toString (222 : Int) ∈ (TelegramBot.BotConfig.mk ["111"]).chat_ids)
    ∧ (TelegramBot.handleEvent ⟨["111"]⟩ ⟨[], 0⟩ (.cmdGetChatId 222)).replies
        = ["Your chat ID is: 222"] := by
  refine ⟨by decide, by decide⟩

/-- Claim C1 (amended: for the `/start` and free-text handlers an event from
an identity outside the allow-list is silently dropped — no reply, no session
mutation, no agent use; the `/get_chat_id` handler replies regardless of the
allow-list, though it never mutates the session map either). -/
theorem allowlist_silent_drop (cfg : TelegramBot.BotConfig) (s : TelegramBot.BotState)
    (cid : Int) (t : String) (h : toString cid ∉ cfg.chat_ids) :
    TelegramBot.handleEvent cfg s (.cmdStart cid) = ⟨s, [], none⟩
    ∧ TelegramBot.handleEvent cfg s (.text cid t) = ⟨s, [], none⟩
    ∧ (TelegramBot.handleEvent cfg s (.cmdGetChatId cid)).state = s := by
  refine ⟨?_, ?_, rfl⟩
  · rw [TelegramBot.handleEvent, TelegramBot.start, if_neg h]
  · rw [TelegramBot.handleEvent, TelegramBot.message, if_neg h]

/-- Claim C1 witness: with allow-list `["111"]`, the identity `222` sending
`/start` or a free-text message produces no reply and leaves the session map
untouched. -/
theorem allowlist_silent_drop_witness :
    toString (222 : Int) ∉ (TelegramBot.BotConfig.mk ["111"]).chat_ids
    ∧ (TelegramBot.handleEvent ⟨["111"]⟩ ⟨[(7, 0)], 1⟩ (.cmdStart 222)
          = ⟨⟨[(7, 0)], 1⟩, [], none⟩
       ∧ TelegramBot.handleEvent ⟨["111"]⟩ ⟨[(7, 0)], 1⟩ (.text 222 "hi")
          = ⟨⟨[(7, 0)], 1⟩, [], none⟩
       ∧ (TelegramBot.handleEvent ⟨["111"]⟩ ⟨[(7, 0)], 1⟩ (.cmdGetChatId 222)).state
          = ⟨[(7, 0)], 1⟩) :=
  ⟨by decide, allowlist_silent_drop ⟨["111"]⟩ ⟨[(7, 0)], 1⟩ 222 "hi" (by decide)⟩

/-- Claim C6: for an allow-listed identity with no existing session, the first
free-text message lazily creates an agent (the next fresh instance) and
stores it in the session map; a second message from the same identity is
answered by the very same agent instance and leaves the state unchanged. -/
theorem session_reuse (cfg : TelegramBot.BotConfig) (s : TelegramBot.BotState)
    (cid : Int) (t₁ t₂ : String)
    (hmem : toString cid ∈ cfg.chat_ids)
    (hnew : TelegramBot.lookupClient s.clients cid = none) :
    (TelegramBot.handleEvent cfg s (.text cid t₁)).usedAgent = some s.nextAgent
    ∧ TelegramBot.lookupClient
        (TelegramBot.handleEvent cfg s (.text cid t₁)).state.clients cid
        = some s.nextAgent
    ∧ (TelegramBot.handleEvent cfg
        (TelegramBot.handleEvent cfg s (.text cid t₁)).state (.text cid t₂)).usedAgent
        = some s.nextAgent
    ∧ (TelegramBot.handleEvent cfg
        (TelegramBot.handleEvent cfg s (.text cid t₁)).state (.text cid t₂)).state
        = (TelegramBot.handleEvent cfg s (.text cid t₁)).state := by
  have h1 : TelegramBot.handleEvent cfg s (.text cid t₁)
      = ⟨⟨(cid, s.nextAgent) :: s.clients, s.nextAgent + 1⟩,
          [TelegramBot.send_message s.nextAgent t₁], some s.nextAgent⟩ := by
    rw [TelegramBot.handleEvent, TelegramBot.message, if_pos hmem, hnew]
  have hlook : TelegramBot.lookupClient
      ((cid, s.nextAgent) :: s.clients) cid = some s.nextAgent := by
    rw [TelegramBot.lookupClient, if_pos rfl]
  have h2 : TelegramBot.handleEvent cfg
      (⟨⟨(cid, s.nextAgent) :: s.clients, s.nextAgent + 1⟩,
          [TelegramBot.send_message s.nextAgent t₁],
          some s.nextAgent⟩ : TelegramBot.HandlerResult).state (.text cid t₂)
      = ⟨⟨(cid, s.nextAgent) :: s.clients, s.nextAgent + 1⟩,
          [TelegramBot.send_message s.nextAgent t₂], some s.nextAgent⟩ := by
    rw [TelegramBot.handleEvent, TelegramBot.message, if_pos hmem]
    rw [show (⟨⟨(cid, s.nextAgent) :: s.clients, s.nextAgent + 1⟩,
          [TelegramBot.send_message s.nextAgent t₁],
          some s.nextAgent⟩ : TelegramBot.HandlerResult).state.clients
        = (cid, s.nextAgent) :: s.clients from rfl, hlook]
  rw [h1]
  refine ⟨rfl, hlook, ?_, ?_⟩
  · rw [h2]
  · rw [h2]

/-- Claim C6 witness: allow-listed identity `5` starting with an empty session
map gets agent `0` created on the first message and reused on the second. -/
theorem session_reuse_witness :
    (toString (5 : Int) ∈ (TelegramBot.BotConfig.mk ["5"]).chat_ids
      ∧ TelegramBot.lookupClient (TelegramBot.BotState.mk [] 0).clients 5 = none)
    ∧ ((TelegramBot.handleEvent ⟨["5"]⟩ ⟨[], 0⟩ (.text 5 "a")).usedAgent = some 0
      ∧ TelegramBot.lookupClient
          (TelegramBot.handleEvent ⟨["5"]⟩ ⟨[], 0⟩ (.text 5 "a")).state.clients 5
          = some 0
      ∧ (TelegramBot.handleEvent ⟨["5"]⟩
          (TelegramBot.handleEvent ⟨["5"]⟩ ⟨[], 0⟩ (.text 5 "a")).state
          (.text 5 "b")).usedAgent = some 0
      ∧ (TelegramBot.handleEvent ⟨["5"]⟩
          (TelegramBot.handleEvent ⟨["5"]⟩ ⟨[], 0⟩ (.text 5 "a")).state
          (.text 5 "b")).state
          = (TelegramBot.handleEvent ⟨["5"]⟩ ⟨[], 0⟩ (.text 5 "a")).state) :=
  ⟨⟨by decide, by decide⟩,
   session_reuse ⟨["5"]⟩ ⟨[], 0⟩ 5 "a" "b" (by decide) (by decide)⟩

/-- Claim C8: handling any event originating from identity `B` leaves the
session-map entry of every other identity `A` unchanged (same lookup result,
hence the same agent instance if one existed). -/
theorem session_frame (cfg : TelegramBot.BotConfig) (s : TelegramBot.BotState)
    (e : TelegramBot.ChatEvent) (A : Int) (h : A ≠ e.chatId) :
    TelegramBot.lookupClient (TelegramBot.handleEvent cfg s e).state.clients A
      = TelegramBot.lookupClient s.clients A := by
  cases e with
  | cmdStart c =>
    rw [TelegramBot.handleEvent, TelegramBot.start]
    by_cases hm : toString c ∈ cfg.chat_ids
    · rw [if_pos hm]
    · rw [if_neg hm]
  | cmdGetChatId c => rfl
  | text c t =>
    rw [TelegramBot.handleEvent, TelegramBot.message]
    by_cases hm : toString c ∈ cfg.chat_ids
    · rw [if_pos hm]
      cases hl : TelegramBot.lookupClient s.clients c with
      | some a => rfl
      | none =>
        have hc : c ≠ A := Ne.symm h
        show TelegramBot.lookupClient ((c, s.nextAgent) :: s.clients) A
          = TelegramBot.lookupClient s.clients A
        rw [TelegramBot.lookupClient, if_neg hc]
    · rw [if_neg hm]

/-- Claim C8 witness: an event for identity `5` does not disturb the stored
session of identity `1`. -/
theorem session_frame_witness :
    (1 : Int) ≠ (TelegramBot.ChatEvent.text 5 "x").chatId
    ∧ TelegramBot.lookupClient
        (TelegramBot.handleEvent ⟨["5"]⟩ ⟨[(1, 0)], 1⟩ (.text 5 "x")).state.clients 1
      = TelegramBot.lookupClient (TelegramBot.BotState.mk [(1, 0)] 1).clients 1 :=
  ⟨by decide, session_frame ⟨["5"]⟩ ⟨[(1, 0)], 1⟩ (.text 5 "x") 1 (by decide)⟩

/-! ## Claim theorems: Action Registry scan -/

theorem chLE_total : ∀ x y : List Char, chLE x y = true ∨ chLE y x = true := by
  intro x
  induction x with
  | nil => intro y; left; rfl
  | cons a as ih =>
    intro y
    cases y with
    | nil => right; rfl
    | cons b bs =>
      rcases Nat.lt_trichotomy a.toNat b.toNat with hlt | heq | hgt
      · left; rw [chLE, if_pos hlt]
      · have h1 : ¬ a.toNat < b.toNat := by rw [heq]; exact lt_irrefl _
        have h2 : ¬ b.toNat < a.toNat := by rw [heq]; exact lt_irrefl _
        rcases ih bs with h | h
        · left; rw [chLE, if_neg h1, if_neg h2]; exact h
        · right; rw [chLE, if_neg h2, if_neg h1]; exact h
      · right; rw [chLE, if_pos hgt]

theorem chLE_trans : ∀ x y z : List Char,
    chLE x y = true → chLE y z = true → chLE x z = true := by
  intro x
  induction x with
  | nil => intro y z h1 h2; rfl
  | cons a as ih =>
    intro y z h1 h2
    cases y with
    | nil => simp [chLE] at h1
    | cons b bs =>
      cases z with
      | nil => simp [chLE] at h2
      | cons c cs =>
        rw [chLE] at h1 h2 ⊢
        by_cases hab : a.toNat < b.toNat
        · rw [if_pos hab] at h1
          by_cases hbc : b.toNat < c.toNat
          · rw [if_pos (Nat.lt_trans hab hbc)]
          · rw [if_neg hbc] at h2
            by_cases hcb : c.toNat < b.toNat
            · rw [if_pos hcb] at h2; exact absurd h2 (by simp)
            · have hbceq : b.toNat = c.toNat :=
                Nat.le_antisymm (Nat.not_lt.mp hcb) (Nat.not_lt.mp hbc)
              rw [if_pos (hbceq ▸ hab)]
        · rw [if_neg hab] at h1
          by_cases hba : b.toNat < a.toNat
          · rw [if_pos hba] at h1; exact absurd h1 (by simp)
          · rw [if_neg hba] at h1
            have habeq : a.toNat = b.toNat :=
              Nat.le_antisymm (Nat.not_lt.mp hba) (Nat.not_lt.mp hab)
            by_cases hbc : b.toNat < c.toNat
            · rw [if_pos (habeq ▸ hbc)]
            · rw [if_neg hbc] at h2
              by_cases hcb : c.toNat < b.toNat
              · rw [if_pos hcb] at h2; exact absurd h2 (by simp)
              · rw [if_neg hcb] at h2
                have hac1 : ¬ a.toNat < c.toNat := habeq ▸ hbc
                have hac2 : ¬ c.toNat < a.toNat := habeq ▸ hcb
                rw [if_neg hac1, if_neg hac2]
                exact ih bs cs h1 h2

theorem chLE_antisymm : ∀ x y : List Char,
    chLE x y = true → chLE y x = true → x = y := by
  intro x
  induction x with
  | nil =>
    intro y h1 h2
    cases y with
    | nil => rfl
    | cons b bs => simp [chLE] at h2
  | cons a as ih =>
    intro y h1 h2
    cases y with
    | nil => simp [chLE] at h1
    | cons b bs =>
      rw [chLE] at h1 h2
      by_cases hab : a.toNat < b.toNat
      · rw [if_neg (Nat.lt_asymm hab), if_pos hab] at h2
        exact absurd h2 (by simp)
      · by_cases hba : b.toNat < a.toNat
        · rw [if_neg hab, if_pos hba] at h1
          exact absurd h1 (by simp)
        · rw [if_neg hab, if_neg hba] at h1
          rw [if_neg hba, if_neg hab] at h2
          have htn : a.toNat = b.toNat :=
            Nat.le_antisymm (Nat.not_lt.mp hba) (Nat.not_lt.mp hab)
          have hc : a = b := Char.eq_of_val_eq (UInt32.ext htn)
          rw [hc, ih bs h1 h2]

instance : IsTotal ModMember nameLE :=
  ⟨fun a b => chLE_total a.name.data b.name.data⟩

instance : IsTrans ModMember nameLE :=
  ⟨fun a b c => chLE_trans a.name.data b.name.data c.name.data⟩

instance : IsAntisymm ModMember nameLT :=
  ⟨fun a b h h' =>
    absurd (String.ext (chLE_antisymm a.name.data b.name.data h.1 h'.1)) h.2⟩

theorem sorted_nodup_pairwise_lt (l : List ModMember)
    (hs : List.Sorted nameLE l) (hn : (l.map ModMember.name).Nodup) :
    List.Pairwise nameLT l := by
  have hne : l.Pairwise (fun a b => a.name ≠ b.name) := List.pairwise_map.mp hn
  exact List.Pairwise.and hs hne

theorem getmembers_perm_eq (ms₁ ms₂ : List ModMember) (hp : ms₁.Perm ms₂)
    (hn : (ms₁.map ModMember.name).Nodup) : getmembers ms₁ = getmembers ms₂ := by
  have h₁ := List.perm_insertionSort nameLE ms₁
  have h₂ := List.perm_insertionSort nameLE ms₂
  have hn₂ : (ms₂.map ModMember.name).Nodup := (hp.map ModMember.name).nodup_iff.mp hn
  have hs₁ : List.Pairwise nameLT (getmembers ms₁) :=
    sorted_nodup_pairwise_lt _ (List.sorted_insertionSort nameLE ms₁)
      ((h₁.map ModMember.name).nodup_iff.mpr hn)
  have hs₂ : List.Pairwise nameLT (getmembers ms₂) :=
    sorted_nodup_pairwise_lt _ (List.sorted_insertionSort nameLE ms₂)
      ((h₂.map ModMember.name).nodup_iff.mpr hn₂)
  exact List.eq_of_perm_of_sorted (h₁.trans (hp.trans h₂.symm)) hs₁ hs₂

theorem scan_module_stable (n : String) (ms₁ ms₂ : List ModMember)
    (hp : ms₁.Perm ms₂) (hn : (ms₁.map ModMember.name).Nodup) :
    scan_module n ms₁ = scan_module n ms₂ := by
  rw [scan_module, scan_module, getmembers_perm_eq ms₁ ms₂ hp hn]

/-- Claim C9: the Action Registry scan is a deterministic, order-stable
function of the scanned modules: two runs over the same set of modules —
each module holding the same members, possibly enumerated in a different
order, with (as in a Python module dict) no duplicate member names — produce
identical registries, and in particular byte-identical ordered name lists,
because `inspect.getmembers` sorts members by name. -/
theorem action_registry_scan_stable :
    ∀ (mods₁ mods₂ : List (String × List ModMember)),
      List.Forall₂ (fun p q => p.1 = q.1 ∧ p.2.Perm q.2 ∧ (p.2.map ModMember.name).Nodup)
        mods₁ mods₂ →
      all_functions mods₁ = all_functions mods₂
      ∧ (all_functions mods₁).map ModMember.name
          = (all_functions mods₂).map ModMember.name := by
  intro mods₁ mods₂ h
  have hmain : all_functions mods₁ = all_functions mods₂ := by
    induction h with
    | nil => rfl
    | @cons a b l₁ l₂ hpq hrest ih =>
      obtain ⟨n₁, m₁⟩ := a
      obtain ⟨n₂, m₂⟩ := b
      have hn : n₁ = n₂ := hpq.1
      have hperm : m₁.Perm m₂ := hpq.2.1
      have hnod : (m₁.map ModMember.name).Nodup := hpq.2.2
      rw [all_functions, all_functions, ih, hn,
        scan_module_stable n₂ m₁ m₂ hperm hnod]
  exact ⟨hmain, by rw [hmain]⟩

/-- Claim C9 witness: one module named `m` with functions `alpha` and `beta`
enumerated in the two opposite orders yields the same registry and the same
ordered name list. -/
theorem action_registry_scan_stable_witness :
    List.Forall₂ (fun p q => p.1 = q.1 ∧ p.2.Perm q.2 ∧ (p.2.map ModMember.name).Nodup)
        [("m", [⟨"beta", "m", true⟩, ⟨"alpha", "m", true⟩])]
        [("m", [⟨"alpha", "m", true⟩, ⟨"beta", "m", true⟩])]
    ∧ (all_functions [("m", [⟨"beta", "m", true⟩, ⟨"alpha", "m", true⟩])]
        = all_functions [("m", [⟨"alpha", "m", true⟩, ⟨"beta", "m", true⟩])]
      ∧ (all_functions [("m", [⟨"beta", "m", true⟩, ⟨"alpha", "m", true⟩])]).map ModMember.name
        = (all_functions [("m", [⟨"alpha", "m", true⟩, ⟨"beta", "m", true⟩])]).map ModMember.name) := by
  have h : List.Forall₂ (fun p q => p.1 = q.1 ∧ p.2.Perm q.2 ∧ (p.2.map ModMember.name).Nodup)
      [("m", [⟨"beta", "m", true⟩, ⟨"alpha", "m", true⟩])]
      [("m", [⟨"alpha", "m", true⟩, ⟨"beta", "m", true⟩])] :=
    List.Forall₂.cons ⟨rfl, by decide, by decide⟩ List.Forall₂.nil
  exact ⟨h, action_registry_scan_stable _ _ h⟩

/-! ## Claim theorems: `create_client` and the registry copy -/

theorem create_client_snd (h : PyHeap) (r cb : Nat) :
    (create_client h r cb).2 = h.length := rfl

theorem create_client_length (h : PyHeap) (r cb : Nat) :
    ((create_client h r cb).1).length = h.length + 1 := by
  simp [create_client, listCopy, listAppendAt]

theorem create_client_frame (h : PyHeap) (a cb r : Nat) (hr : r < h.length) :
    ((create_client h a cb).1).getD r [] = h.getD r [] := by
  show ((listAppendAt (h ++ [h.getD a []]) h.length cb)).getD r [] = h.getD r []
  rw [listAppendAt, List.getD_eq_getElem?_getD, List.getD_eq_getElem?_getD,
    List.getElem?_set_ne (Nat.ne_of_gt hr),
    List.getElem?_append_left hr, ← List.getD_eq_getElem?_getD]

theorem create_client_new (h : PyHeap) (allRef cb : Nat) :
    ((create_client h allRef cb).1).getD h.length [] = h.getD allRef [] ++ [cb] := by
  show ((listAppendAt (h ++ [h.getD allRef []]) h.length cb)).getD h.length [] = _
  rw [listAppendAt, List.getD_eq_getElem?_getD,
    List.getElem?_set_eq (by simp),
    List.getD_eq_getElem?_getD, List.getElem?_concat_length]
  rfl

theorem create_clients_length (allRef : Nat) :
    ∀ (cbs : List Nat) (h : PyHeap),
      h.length ≤ ((create_clients h allRef cbs).1).length := by
  intro cbs
  induction cbs with
  | nil => intro h; exact le_refl _
  | cons cb rest ih =>
    intro h
    have h1 := ih (create_client h allRef cb).1
    rw [create_client_length] at h1
    exact le_trans (Nat.le_succ _) h1

theorem create_clients_frame (allRef : Nat) :
    ∀ (cbs : List Nat) (h : PyHeap) (r : Nat), r < h.length →
      ((create_clients h allRef cbs).1).getD r [] = h.getD r [] := by
  intro cbs
  induction cbs with
  | nil => intro h r _; rfl
  | cons cb rest ih =>
    intro h r hr
    show ((create_clients (create_client h allRef cb).1 allRef rest).1).getD r [] = _
    rw [ih (create_client h allRef cb).1 r
        (by rw [create_client_length]; exact Nat.lt_succ_of_lt hr),
      create_client_frame h allRef cb r hr]

/-- Claim C10: every `create_client` call leaves the module-level
`all_functions` registry cell unchanged (the callback is appended to a
`copy()` of it), so a sequence of `create_client` calls builds every client
from the same base registry with exactly its own callback appended at the
end. -/
theorem create_client_preserves_registry (h : PyHeap) (allRef : Nat)
    (cbs : List Nat) (hr : allRef < h.length) :
    ((create_clients h allRef cbs).1).getD allRef [] = h.getD allRef []
    ∧ ((create_clients h allRef cbs).2).length = cbs.length
    ∧ ∀ i, i < cbs.length →
        ((create_clients h allRef cbs).1).getD
            (((create_clients h allRef cbs).2).getD i 0) []
          = h.getD allRef [] ++ [cbs.getD i 0] := by
  refine ⟨create_clients_frame allRef cbs h allRef hr, ?_, ?_⟩
  · induction cbs generalizing h with
    | nil => rfl
    | cons cb rest ih =>
      show ((create_clients (create_client h allRef cb).1 allRef rest).2).length + 1
          = rest.length + 1
      rw [ih (create_client h allRef cb).1
          (by rw [create_client_length]; exact Nat.lt_succ_of_lt hr)]
  · induction cbs generalizing h with
    | nil => intro i hi; exact absurd hi (by simp)
    | cons cb rest ih =>
      intro i hi
      cases i with
      | zero =>
        show ((create_clients (create_client h allRef cb).1 allRef rest).1).getD
            ((create_client h allRef cb).2) [] = h.getD allRef [] ++ [cb]
        rw [create_clients_frame allRef rest (create_client h allRef cb).1
            (create_client h allRef cb).2
            (by rw [create_client_snd, create_client_length]; exact Nat.lt_succ_self _),
          create_client_snd, create_client_new]
      | succ j =>
        have hj : j < rest.length := Nat.lt_of_succ_lt_succ hi
        have hstep := ih (create_client h allRef cb).1
          (by rw [create_client_length]; exact Nat.lt_succ_of_lt hr) j hj
        rw [create_client_frame h allRef cb allRef hr] at hstep
        exact hstep

/-- Claim C10 witness: starting from a heap whose cell 0 holds the registry
`[1, 2]`, two `create_client` calls with callbacks `7` and `8` leave cell 0
unchanged and build the two client lists `[1, 2, 7]` and `[1, 2, 8]`. -/
theorem create_client_preserves_registry_witness :
    (0 < ([[1, 2]] : PyHeap).length)
    ∧ (((create_clients [[1, 2]] 0 [7, 8]).1).getD 0 []
          = ([[1, 2]] : PyHeap).getD 0 []
      ∧ ((create_clients [[1, 2]] 0 [7, 8]).2).length = ([7, 8] : List Nat).length
      ∧ ∀ i, i < ([7, 8] : List Nat).length →
          ((create_clients [[1, 2]] 0 [7, 8]).1).getD
              (((create_clients [[1, 2]] 0 [7, 8]).2).getD i 0) []
            = ([[1, 2]] : PyHeap).getD 0 [] ++ [([7, 8] : List Nat).getD i 0]) :=
  ⟨by decide, create_client_preserves_registry [[1, 2]] 0 [7, 8] (by decide)⟩
